import Mathlib

/-!
Verification of the OFDM anomaly detection repository (src/model_rt.py).

The development shallowly embeds the class `RealtimeModel` of `src/model_rt.py`.

Modelling conventions, stated once here and referenced below:

* Complex samples are opaque: the sample type is a type parameter `α`.
  Nothing in `model_rt.py` inspects sample values; they only flow into the
  external feature/classifier pipeline.
* The external collaborators `signal_interval`, `energy_arrays`
  (module `utils_preprocess`, not part of the sources) and `model.predict`
  are modelled as one abstract composite function
  `classify : List α → List Nat`, mapping the flat sample sequence that
  `get_current_prediction` hands to `signal_interval` (line 78-85 of the
  source) to the per-interval label sequence stored into
  `self.predictions[:, i]` (line 89).  Likewise in batch mode the composite
  is abstracted by a function from a recording to its label sequence `y`.
* numpy arrays of samples/labels are Lean lists; slice assignment
  `self.buffer[start:end] = X` is take/append/drop (exact when
  `X.length = nfft` and the slice is in range, which the state invariant
  and the numpy shape check guarantee).
* `np.empty` produces arrays with unspecified contents; we model the
  freshly allocated sample buffer as `List.replicate _ d` for a caller
  supplied fill element `d`, and the freshly allocated integer
  `predictions` buffer as `List.replicate _ 0`.
* Dict lookups `class_map[...]` are applications of a total function
  `Nat → String`; of the dict `classes` only the entry `classes["Clean"]`
  is ever read by the source, kept as the field `clean`.
* The constructor asserts `n_shifts == 1`, so the embedding fixes
  `n_shifts = 1`: the shift loop runs once with `shift = 0`, and the
  `num_intervals += 1` branch (line 32-33) is dead code.
* Python integer counters start at 0 and are only incremented or reset,
  so they are `Nat`.
-/

namespace OFDM

/-- Construction-time configuration of `RealtimeModel.__init__`
(line 6-15 of the source): `nfft`, `offset`, `n_partitions`, the label id
`classes["Clean"]` and the coarse map `class_map`. -/
structure RTConfig where
  nfft : Nat
  offset : Nat
  n_partitions : Nat
  clean : Nat
  class_map : Nat → String

/-- The default `class_map` dict of line 11-15: start markers map to the
coarse category, Clean and the stop markers map to "Clean". -/
def defaultClassMap : Nat → String
  | 1 => "Narrowband"
  | 3 => "Wideband"
  | _ => "Clean"

/-- The default configuration of `__init__` (line 6-15):
`nfft=1024, offset=4, n_partitions=32`, `classes["Clean"]=0`. -/
def defaultConfig : RTConfig :=
  { nfft := 1024, offset := 4, n_partitions := 32
    clean := 0, class_map := defaultClassMap }

/-- The mutable state of a `RealtimeModel` instance, one field per
attribute assigned in `__init__` (line 27-46).  `fd_buffer` is omitted:
it is overwritten before use on every ready call and never read across
calls.  `predictions` keeps column 0 (the only column, `n_shifts = 1`). -/
structure RealtimeModel (α : Type) where
  cfg : RTConfig
  n_confirmations : Nat
  num_intervals : Nat
  buffer : List α
  buffer_index : Nat
  ready : Bool
  predictions : List Nat
  prediction : Nat
  intervals_since_last_prediction : Nat
  intervals_since_current_prediction : Nat
  possible_prediction : Nat

/-- The body of `__init__` (line 26-46): `n_confirmations = max(1, offset-2)`,
`num_intervals = offset+1` (the `n_shifts > 1` branch is dead),
buffer of `nfft*num_intervals` samples, index 0, not ready, both decision
classes `classes["Clean"]`, counters 0. -/
def init (α : Type) (cfg : RTConfig) (d : α) : RealtimeModel α :=
  { cfg := cfg
    n_confirmations := max 1 (cfg.offset - 2)
    num_intervals := cfg.offset + 1
    buffer := List.replicate (cfg.nfft * (cfg.offset + 1)) d
    buffer_index := 0
    ready := false
    predictions := List.replicate cfg.nfft 0
    prediction := cfg.clean
    intervals_since_last_prediction := 0
    intervals_since_current_prediction := 0
    possible_prediction := cfg.clean }

/-- `reset` (line 48-53): calls `__init__` again, passing the stored
attributes `self.nfft, self.offset, self.n_shifts, self.n_partitions`
and the stored class dictionaries back; the model reference is external
to the state and unchanged. -/
def RealtimeModel.reset {α : Type} (s : RealtimeModel α) (d : α) : RealtimeModel α :=
  init α
    { nfft := s.cfg.nfft, offset := s.cfg.offset, n_partitions := s.cfg.n_partitions
      clean := s.cfg.clean, class_map := s.cfg.class_map } d

/-- Allocated length of the circular sample buffer, `self.buffer.shape[0]`. -/
def bufLen {α : Type} (s : RealtimeModel α) : Nat :=
  s.cfg.nfft * s.num_intervals

/-- Line 70-72: `self.buffer[start:end] = X` with
`start = buffer_index*nfft`, `end = (buffer_index+1)*nfft`. -/
def writeBuffer {α : Type} (s : RealtimeModel α) (X : List α) : List α :=
  s.buffer.take (s.buffer_index * s.cfg.nfft) ++ X
    ++ s.buffer.drop ((s.buffer_index + 1) * s.cfg.nfft)

/-- Line 67-68: the readiness flag after the check at the top of
`get_current_prediction` (it is set when `buffer_index == num_intervals-1`
and never cleared). -/
def readyAfter {α : Type} (s : RealtimeModel α) : Bool :=
  s.ready || decide (s.buffer_index = s.num_intervals - 1)

/-- Line 79-82 (for the only shift, `shift = 0`): the flat sample sequence
handed to `signal_interval`, namely
`np.concatenate((buffer[end % L :], buffer[: 1 + end % L]))`
computed on the buffer after the new block was written. -/
def handedWindow {α : Type} (s : RealtimeModel α) (X : List α) : List α :=
  (writeBuffer s X).drop (((s.buffer_index + 1) * s.cfg.nfft) % bufLen s)
    ++ (writeBuffer s X).take (1 + ((s.buffer_index + 1) * s.cfg.nfft) % bufLen s)

/-- Line 77-89: the raw label sequence of shift 0, i.e. the result of the
external pipeline `model.predict(energy_arrays(signal_interval(...)))`
applied to the handed window, as stored into `self.predictions[:, 0]`. -/
def rawLabels {α : Type} (classify : List α → List Nat)
    (s : RealtimeModel α) (X : List α) : List Nat :=
  classify (handedWindow s X)

/-- Line 92: `prediction = self.predictions[-1, 0]`, the last entry of the
raw label sequence.  numpy indexing of an empty array would raise; the
default is irrelevant for any classifier output of positive length. -/
def latestOf (cfg : RTConfig) (labels : List Nat) : Nat :=
  labels.getLastD cfg.clean

/-- Line 100: `np.all(self.predictions[-n_confirmations:, 0] == self.predictions[-1, 0])`.
numpy tail slicing `[-n:]` takes the whole array when `n` exceeds its
length, which `drop (length - n)` reproduces on `Nat`. -/
def confirmTail (nconf : Nat) (labels : List Nat) (latest : Nat) : Bool :=
  (labels.drop (labels.length - nconf)).all (fun v => v == latest)

/-- Common tail of every branch of `get_current_prediction`: store the
written buffer and the (possibly unchanged) predictions column, advance
`buffer_index` modulo `num_intervals` (line 104), and return
`(class_map[prediction], intervals_since_last_prediction * nfft)`
(line 106) from the final field values. -/
def finishStep {α : Type} (s : RealtimeModel α) (buf : List α) (preds : List Nat)
    (pred possible isl isc : Nat) : RealtimeModel α × String × Nat :=
  ({ cfg := s.cfg
     n_confirmations := s.n_confirmations
     num_intervals := s.num_intervals
     buffer := buf
     buffer_index := (s.buffer_index + 1) % s.num_intervals
     ready := readyAfter s
     predictions := preds
     prediction := pred
     intervals_since_last_prediction := isl
     intervals_since_current_prediction := isc
     possible_prediction := possible },
   s.cfg.class_map pred, isl * s.cfg.nfft)

/-- `get_current_prediction` (line 55-106).  Control flow of the source:
increment both counters; maybe set `ready`; write the block; if ready,
compute the raw labels and run the decision update of line 92-102
(`latest` non clean: maybe reset `intervals_since_current_prediction`,
set `possible_prediction`, and on a confirmed tail promote); advance the
write index; return the mapped prediction and the sample duration. -/
def get_current_prediction {α : Type} (classify : List α → List Nat)
    (s : RealtimeModel α) (X : List α) : RealtimeModel α × String × Nat :=
  if readyAfter s = true then
    if latestOf s.cfg (rawLabels classify s X) ≠ s.cfg.clean then
      if confirmTail s.n_confirmations (rawLabels classify s X)
          (latestOf s.cfg (rawLabels classify s X)) = true then
        -- line 95-102, confirmation succeeds: prediction := latest and
        -- intervals_since_last := intervals_since_current (after its
        -- conditional reset at line 95-96)
        finishStep s (writeBuffer s X) (rawLabels classify s X)
          (latestOf s.cfg (rawLabels classify s X))
          (latestOf s.cfg (rawLabels classify s X))
          (if latestOf s.cfg (rawLabels classify s X) ≠ s.possible_prediction then 0
            else s.intervals_since_current_prediction + 1)
          (if latestOf s.cfg (rawLabels classify s X) ≠ s.possible_prediction then 0
            else s.intervals_since_current_prediction + 1)
      else
        -- line 95-97 only: candidate update without promotion
        finishStep s (writeBuffer s X) (rawLabels classify s X)
          s.prediction
          (latestOf s.cfg (rawLabels classify s X))
          (s.intervals_since_last_prediction + 1)
          (if latestOf s.cfg (rawLabels classify s X) ≠ s.possible_prediction then 0
            else s.intervals_since_current_prediction + 1)
    else
      -- latest raw label is Clean: the whole block of line 94-102 is skipped
      finishStep s (writeBuffer s X) (rawLabels classify s X)
        s.prediction s.possible_prediction
        (s.intervals_since_last_prediction + 1)
        (s.intervals_since_current_prediction + 1)
  else
    -- not ready: no classification, predictions untouched
    finishStep s (writeBuffer s X) s.predictions
      s.prediction s.possible_prediction
      (s.intervals_since_last_prediction + 1)
      (s.intervals_since_current_prediction + 1)

/-- Fold a sequence of incoming blocks through `get_current_prediction`,
keeping only the final state. -/
def feedAll {α : Type} (classify : List α → List Nat) (s : RealtimeModel α)
    (Xs : List (List α)) : RealtimeModel α :=
  Xs.foldl (fun t X => (get_current_prediction classify t X).1) s

/-- The list of `(category, duration)` return values produced by feeding
a sequence of blocks through `get_current_prediction`. -/
def outputsOf {α : Type} (classify : List α → List Nat) (s : RealtimeModel α) :
    List (List α) → List (String × Nat)
  | [] => []
  | X :: Xs =>
    (get_current_prediction classify s X).2
      :: outputsOf classify (get_current_prediction classify s X).1 Xs

/-- The chronological content of the circular buffer: the rotation that
starts at the current write slot (which holds the oldest block when the
buffer is full and no block has been written in the current call yet). -/
def logicalContent {α : Type} (s : RealtimeModel α) : List α :=
  s.buffer.drop (s.buffer_index * s.cfg.nfft)
    ++ s.buffer.take (s.buffer_index * s.cfg.nfft)

/-! ## Batch mode: `classificate_recordings` (line 108-167)

Per recording, the external pipeline
`model.predict(energy_arrays(signal_interval(signal, len, nfft)))`
(line 117-122) produces a label sequence `y`; everything after that is
pure label-sequence processing, embedded below.  The surrounding loop is
`classificate_recordings`, parametrised by the abstract composite
`labelsOf` from recordings to label sequences. -/

/-- Line 130 and 154: the boolean array `y[j:] == y[:-j]`. -/
def repeatedMask (y : List Nat) (j : Nat) : List Bool :=
  List.zipWith (fun a b => a == b) (y.drop j) (y.take (y.length - j))

/-- Line 124 and the loop of line 128-130: `key = y != classes["Clean"]`,
then `shift` times `key = key[:-1] & (y[j:] == y[:-j])`. -/
def keyIter (clean : Nat) (y : List Nat) : Nat → List Bool
  | 0 => y.map (fun v => v != clean)
  | j + 1 =>
    List.zipWith (fun a b => a && b) (keyIter clean y j).dropLast
      (repeatedMask y (j + 1))

/-- The confirmed-nonclean mask produced by line 123-130, with
`shift = n_confirmations - 1`. -/
def keyMask (cfg : RTConfig) (y : List Nat) : List Bool :=
  keyIter cfg.clean y (max 1 (cfg.offset - 2) - 1)

/-- Boolean mask selection `y[key]` (line 133).  The mask produced by the
loop is `shift` entries shorter than `y`; elementwise pairing truncates
to the mask length, i.e. missing mask entries select nothing. -/
def selectMask (y : List Nat) (key : List Bool) : List Nat :=
  (y.zip key).filterMap (fun p => if p.2 then some p.1 else none)

/-- Distinct values of a list, keeping first occurrences in order;
`seen` accumulates the values already emitted. -/
def distinctsAux (seen : List Nat) : List Nat → List Nat
  | [] => []
  | v :: vs =>
    if seen.contains v then distinctsAux seen vs
    else v :: distinctsAux (v :: seen) vs

/-- Distinct values of a list, keeping first occurrences in order. -/
def distincts (l : List Nat) : List Nat :=
  distinctsAux [] l

/-- Insertion of a value into a sorted list. -/
def insertSorted (v : Nat) : List Nat → List Nat
  | [] => [v]
  | w :: ws => if v ≤ w then v :: w :: ws else w :: insertSorted v ws

/-- Insertion sort, ascending. -/
def sortNat (l : List Nat) : List Nat :=
  l.foldr insertSorted []

/-- `np.unique(l, return_index=True)` (line 133): the sorted distinct
values together with, for each, the index of its first occurrence in `l`. -/
def npUnique (l : List Nat) : List Nat × List Nat :=
  (sortNat (distincts l), (sortNat (distincts l)).map (fun v => l.findIdx (fun w => w == v)))

/-- `np.argmin` on a list of naturals: index of the leftmost minimum. -/
def np_argmin (l : List Nat) : Nat :=
  l.findIdx (fun v => l.all (fun w => decide (v ≤ w)))

/-- `np.argmax` on a list of naturals: index of the leftmost maximum. -/
def np_argmax (l : List Nat) : Nat :=
  l.findIdx (fun v => l.all (fun w => decide (w ≤ v)))

/-- `np.argmax` of a boolean array (line 157-158): index of the first
`True`, and 0 when no entry is `True`. -/
def np_argmax_bool (l : List Bool) : Nat :=
  if l.any (fun b => b) then l.findIdx (fun b => b) else 0

/-- Line 136: `prediction = unique[index.argmin()]`, the unique value of
`y[key]` whose first occurrence in `y[key]` is earliest. -/
def start_label (cfg : RTConfig) (y : List Nat) : Nat :=
  (npUnique (selectMask y (keyMask cfg y))).1.getD
    (np_argmin (npUnique (selectMask y (keyMask cfg y))).2) 0

/-- Line 139: `end_prediction = unique[index.argmax()]`, the unique value
of `y[key]` whose first occurrence in `y[key]` is latest. -/
def end_label (cfg : RTConfig) (y : List Nat) : Nat :=
  (npUnique (selectMask y (keyMask cfg y))).1.getD
    (np_argmax (npUnique (selectMask y (keyMask cfg y))).2) 0

/-- Line 144: the acceptance condition of the detection, i.e. the
negation of `class_map[prediction] != class_map[end_prediction] or len(unique) != 2`. -/
def validityOk (cfg : RTConfig) (y : List Nat) : Bool :=
  (cfg.class_map (start_label cfg y) == cfg.class_map (end_label cfg y))
    && ((npUnique (selectMask y (keyMask cfg y))).1.length == 2)

/-- The loop of line 152-156 applied to an initial boolean mask `m`:
`j` iterations of `m = m[:-1] & (y[j:] == y[:-j])`. -/
def maskIter (y : List Nat) (m : List Bool) : Nat → List Bool
  | 0 => m
  | j + 1 =>
    List.zipWith (fun a b => a && b) (maskIter y m j).dropLast (repeatedMask y (j + 1))

/-- Line 150-157: the mask `y == label` thinned by the same `shift`
iterations of `& (y[j:] == y[:-j])`, then `argmax` (first hit). -/
def runHeadPos (label : Nat) (y : List Nat) (shift : Nat) : Nat :=
  np_argmax_bool (maskIter y (y.map (fun v => v == label)) shift)

/-- One dict of the result list.  In the source the values naturally have
this shape only on the clean path; see `classificateOne`. -/
structure BatchItem where
  Class : Nat
  Start : Option Nat
  Stop : Option Nat
deriving DecidableEq

/-- The body of the loop of `classificate_recordings` for one recording
with label sequence `y` (line 117-165), after the pipeline producing `y`
is abstracted away.

On the path where `np.any(key)` holds (line 132), line 136 rebinds the
name `prediction` from the result list to the numpy scalar
`unique[index.argmin()]` (or, on the invalid branch of line 144-146, to
the string `class_map[classes["Clean"]]`), so the item assignment
`prediction[i] = {...}` at line 162 raises `TypeError` on either branch:
no value is returned.  The uncaught exception is modelled as `none`. -/
def classificateOne (cfg : RTConfig) (y : List Nat) : Option BatchItem :=
  if (keyMask cfg y).any (fun b => b) then
    none
  else
    some { Class := cfg.clean, Start := none, Stop := none }

/-- `classificate_recordings` (line 108-167) over a list of recordings,
with the recording-to-labels pipeline abstracted as `labelsOf`.  The
first recording that reaches line 162 aborts the whole call, so the
result is `none` unless every recording takes the clean path. -/
def classificate_recordings {σ : Type} (cfg : RTConfig) (labelsOf : σ → List Nat) :
    List σ → Option (List BatchItem)
  | [] => some []
  | r :: rs =>
    match classificateOne cfg (labelsOf r) with
    | none => none
    | some b => (classificate_recordings cfg labelsOf rs).map (fun l => b :: l)

/-! ## Concrete scenario material used by witnesses and counterexamples -/

/-- Tiny configuration: one-sample blocks, `offset = 1`
(`num_intervals = 2`, buffer of 2 samples, `n_confirmations = 1`). -/
def cfgA : RTConfig :=
  { nfft := 1, offset := 1, n_partitions := 1, clean := 0, class_map := defaultClassMap }

/-- A classifier stub for `cfgA` scenarios; never consulted before
readiness and irrelevant to buffer reconstruction facts. -/
def clA : List Nat → List Nat := fun _ => [0]

/-- Tiny configuration: one-sample blocks, `offset = 2`
(`num_intervals = 3`, `n_confirmations = 1`). -/
def cfgC : RTConfig :=
  { nfft := 1, offset := 2, n_partitions := 1, clean := 0, class_map := defaultClassMap }

/-- Small configuration: two-sample blocks, `offset = 4`
(`num_intervals = 5`, buffer of 10 samples, `n_confirmations = 2`). -/
def cfgB : RTConfig :=
  { nfft := 2, offset := 4, n_partitions := 1, clean := 0, class_map := defaultClassMap }

/-- Scenario classifier for `cfgB`: the label sequence depends on the
newest sample of the handed window (flat position 9 of the chronological
window).  Blocks are `[k, k]` at call `k`, so call 5 yields a trailing
non clean label without a confirmed tail, call 7 a confirmed tail, and
every other call an all clean sequence.  Every output has length
`nfft = 2`, the shape the assignment into `predictions[:, 0]` requires. -/
def clB : List Nat → List Nat := fun w =>
  if w.getD 9 0 = 5 then [0, 1]
  else if w.getD 9 0 = 7 then [1, 1]
  else [0, 0]

/-- The blocks `[1,1], [2,2], ..., [m,m]` fed in the `cfgB` scenarios. -/
def blocksB (m : Nat) : List (List Nat) :=
  (List.range m).map (fun k => [k + 1, k + 1])

/-! ## Helper lemmas about a single call -/

theorem step_cfg {α : Type} (classify : List α → List Nat) (s : RealtimeModel α) (X : List α) :
    (get_current_prediction classify s X).1.cfg = s.cfg := by
  unfold get_current_prediction
  split_ifs <;> rfl

theorem step_n_confirmations {α : Type} (classify : List α → List Nat)
    (s : RealtimeModel α) (X : List α) :
    (get_current_prediction classify s X).1.n_confirmations = s.n_confirmations := by
  unfold get_current_prediction
  split_ifs <;> rfl

theorem step_num_intervals {α : Type} (classify : List α → List Nat)
    (s : RealtimeModel α) (X : List α) :
    (get_current_prediction classify s X).1.num_intervals = s.num_intervals := by
  unfold get_current_prediction
  split_ifs <;> rfl

theorem step_buffer {α : Type} (classify : List α → List Nat)
    (s : RealtimeModel α) (X : List α) :
    (get_current_prediction classify s X).1.buffer = writeBuffer s X := by
  unfold get_current_prediction
  split_ifs <;> rfl

theorem step_buffer_index {α : Type} (classify : List α → List Nat)
    (s : RealtimeModel α) (X : List α) :
    (get_current_prediction classify s X).1.buffer_index
      = (s.buffer_index + 1) % s.num_intervals := by
  unfold get_current_prediction
  split_ifs <;> rfl

theorem step_ready {α : Type} (classify : List α → List Nat)
    (s : RealtimeModel α) (X : List α) :
    (get_current_prediction classify s X).1.ready = readyAfter s := by
  unfold get_current_prediction
  split_ifs <;> rfl

/-- A call before readiness: counters tick, the block is written, the
index advances, everything else is untouched and the returned category
is the standing one. -/
theorem step_notReady {α : Type} (classify : List α → List Nat)
    (s : RealtimeModel α) (X : List α) (h : readyAfter s = false) :
    get_current_prediction classify s X =
      ({ cfg := s.cfg
         n_confirmations := s.n_confirmations
         num_intervals := s.num_intervals
         buffer := writeBuffer s X
         buffer_index := (s.buffer_index + 1) % s.num_intervals
         ready := false
         predictions := s.predictions
         prediction := s.prediction
         intervals_since_last_prediction := s.intervals_since_last_prediction + 1
         intervals_since_current_prediction := s.intervals_since_current_prediction + 1
         possible_prediction := s.possible_prediction },
       s.cfg.class_map s.prediction,
       (s.intervals_since_last_prediction + 1) * s.cfg.nfft) := by
  unfold get_current_prediction
  rw [if_neg (by simp [h])]
  unfold finishStep
  rw [h]

/-- The state of the `cfgB` scenario after `m` calls. -/
def sB (m : Nat) : RealtimeModel Nat :=
  feedAll clB (init Nat cfgB 0) (blocksB m)

/-! ## Claim theorems -/

/-- c10: calling `reset` yields a state equal in every field (buffer,
indices, readiness flag, decision state, counters, recomputed
`n_confirmations` and `num_intervals`) to a freshly constructed engine
with the same configuration, without re-supplying the configuration:
`reset` reads it back from the state. -/
theorem c10_reset_is_fresh_init {α : Type} (s : RealtimeModel α) (d : α) :
    s.reset d = init α s.cfg d ∧
    (s.reset d).cfg = s.cfg ∧
    (s.reset d).n_confirmations = max 1 (s.cfg.offset - 2) ∧
    (s.reset d).num_intervals = s.cfg.offset + 1 ∧
    (s.reset d).buffer = List.replicate (s.cfg.nfft * (s.cfg.offset + 1)) d ∧
    (s.reset d).buffer_index = 0 ∧
    (s.reset d).ready = false ∧
    (s.reset d).predictions = List.replicate s.cfg.nfft 0 ∧
    (s.reset d).prediction = s.cfg.clean ∧
    (s.reset d).intervals_since_last_prediction = 0 ∧
    (s.reset d).intervals_since_current_prediction = 0 ∧
    (s.reset d).possible_prediction = s.cfg.clean := by
  refine ⟨rfl, rfl, rfl, rfl, rfl, rfl, rfl, rfl, rfl, rfl, rfl, rfl⟩

/-- c2 (amended): on a ready call whose latest raw label is Clean no
promotion occurs and both the confirmed class and the candidate class
persist; moreover a non-Clean confirmed class is never demoted to Clean
by any call whatsoever, because the promotion rule of line 94-102 only
applies to non-Clean labels.  (The original claim reads that Clean can be
confirmed via the usual rule after `n_confirmations` clean readings; the
counterexample shows it cannot.) -/
theorem c2_clean_never_promoted {α : Type} (classify : List α → List Nat)
    (s : RealtimeModel α) (X : List α) :
    (readyAfter s = true →
      latestOf s.cfg (rawLabels classify s X) = s.cfg.clean →
      (get_current_prediction classify s X).1.prediction = s.prediction ∧
      (get_current_prediction classify s X).1.possible_prediction
        = s.possible_prediction) ∧
    (s.prediction ≠ s.cfg.clean →
      (get_current_prediction classify s X).1.prediction ≠ s.cfg.clean) := by
  constructor
  · intro hr hc
    unfold get_current_prediction
    rw [if_pos hr, if_neg (by simp [hc])]
    exact ⟨rfl, rfl⟩
  · intro hp
    unfold get_current_prediction
    by_cases h1 : readyAfter s = true
    · rw [if_pos h1]
      by_cases h2 : latestOf s.cfg (rawLabels classify s X) ≠ s.cfg.clean
      · rw [if_pos h2]
        by_cases h3 : confirmTail s.n_confirmations (rawLabels classify s X)
            (latestOf s.cfg (rawLabels classify s X)) = true
        · rw [if_pos h3]
          simpa [finishStep] using h2
        · rw [if_neg h3]
          simpa [finishStep] using hp
      · rw [if_neg h2]
        simpa [finishStep] using hp
    · rw [if_neg h1]
      simpa [finishStep] using hp

/-- c2 witness: a concrete ready call (call 8 of the `cfgB` scenario)
with a Clean latest label, where the previously confirmed class 1
persists by `c2_clean_never_promoted`. -/
theorem c2_witness :
    readyAfter (sB 7) = true ∧
    latestOf (sB 7).cfg (rawLabels clB (sB 7) [8, 8]) = (sB 7).cfg.clean ∧
    (sB 7).prediction = 1 ∧
    (get_current_prediction clB (sB 7) [8, 8]).1.prediction = (sB 7).prediction ∧
    (get_current_prediction clB (sB 7) [8, 8]).1.prediction ≠ (sB 7).cfg.clean :=
  ⟨by decide, by decide, by decide,
    ((c2_clean_never_promoted clB (sB 7) [8, 8]).1 (by decide) (by decide)).1,
    (c2_clean_never_promoted clB (sB 7) [8, 8]).2 (by decide)⟩

/-- c2 counterexample: in the `cfgB` scenario (`n_confirmations = 2`)
class 1 is confirmed after call 7; the raw label sequences of calls 8
and 9 are entirely Clean, so Clean is the repeated latest label for
`n_confirmations` consecutive calls, yet the confirmed class remains 1,
not Clean: the demotion described by the claim never happens. -/
theorem c2_counterexample :
    (sB 7).prediction = 1 ∧
    cfgB.clean = 0 ∧
    (sB 7).n_confirmations = 2 ∧
    rawLabels clB (sB 7) [8, 8] = [0, 0] ∧
    rawLabels clB (sB 8) [9, 9] = [0, 0] ∧
    (sB 9).prediction = 1 := by
  refine ⟨by decide, rfl, by decide, by decide, by decide, by decide⟩

/-- c4: on a ready call whose latest raw label is non-Clean, if the
latest label differs from the candidate then `intervals_since_current_prediction`
is reset to 0 and the candidate becomes the latest label; and if the last
`n_confirmations = max 1 (offset - 2)` entries of the raw label sequence
all equal the latest label, the confirmed class becomes the latest label
and `intervals_since_last_prediction` is set to
`intervals_since_current_prediction`. -/
theorem c4_decision_update {α : Type} (classify : List α → List Nat)
    (s : RealtimeModel α) (X : List α)
    (hnc : s.n_confirmations = max 1 (s.cfg.offset - 2))
    (hready : readyAfter s = true)
    (hlat : latestOf s.cfg (rawLabels classify s X) ≠ s.cfg.clean) :
    (latestOf s.cfg (rawLabels classify s X) ≠ s.possible_prediction →
      (get_current_prediction classify s X).1.intervals_since_current_prediction = 0 ∧
      (get_current_prediction classify s X).1.possible_prediction
        = latestOf s.cfg (rawLabels classify s X)) ∧
    (confirmTail (max 1 (s.cfg.offset - 2)) (rawLabels classify s X)
        (latestOf s.cfg (rawLabels classify s X)) = true →
      (get_current_prediction classify s X).1.prediction
          = latestOf s.cfg (rawLabels classify s X) ∧
      (get_current_prediction classify s X).1.intervals_since_last_prediction
        = (get_current_prediction classify s X).1.intervals_since_current_prediction) := by
  unfold get_current_prediction
  rw [if_pos hready, if_pos hlat, hnc]
  constructor
  · intro hdiff
    split_ifs with hconf <;> simp [finishStep, hdiff]
  · intro hconf
    rw [if_pos hconf]
    exact ⟨rfl, rfl⟩

/-- c4 witness: call 5 of the `cfgB` scenario exercises the candidate
reset (labels `[0, 1]`, latest 1 differs from candidate 0), call 7 the
promotion (labels `[1, 1]`, confirmed tail). -/
theorem c4_witness :
    rawLabels clB (sB 4) [5, 5] = [0, 1] ∧
    (get_current_prediction clB (sB 4) [5, 5]).1.intervals_since_current_prediction = 0 ∧
    (get_current_prediction clB (sB 4) [5, 5]).1.possible_prediction
      = latestOf (sB 4).cfg (rawLabels clB (sB 4) [5, 5]) ∧
    (get_current_prediction clB (sB 6) [7, 7]).1.prediction
      = latestOf (sB 6).cfg (rawLabels clB (sB 6) [7, 7]) ∧
    (get_current_prediction clB (sB 6) [7, 7]).1.intervals_since_last_prediction
      = (get_current_prediction clB (sB 6) [7, 7]).1.intervals_since_current_prediction :=
  ⟨by decide,
    ((c4_decision_update clB (sB 4) [5, 5] (by decide) (by decide) (by decide)).1
      (by decide)).1,
    ((c4_decision_update clB (sB 4) [5, 5] (by decide) (by decide) (by decide)).1
      (by decide)).2,
    ((c4_decision_update clB (sB 6) [7, 7] (by decide) (by decide) (by decide)).2
      (by decide)).1,
    ((c4_decision_update clB (sB 6) [7, 7] (by decide) (by decide) (by decide)).2
      (by decide)).2⟩

/-- c6 (amended): the returned duration equals the post-call
`intervals_since_last_prediction * nfft` at every call, and whenever the
confirmed class changes the duration equals the post-call
`intervals_since_current_prediction * nfft` — which is not necessarily
at most `nfft`: it exceeds one window whenever the candidate was first
seen on an earlier call, as the counterexample shows. -/
theorem c6_duration_accounting {α : Type} (classify : List α → List Nat)
    (s : RealtimeModel α) (X : List α) :
    (get_current_prediction classify s X).2.2
      = (get_current_prediction classify s X).1.intervals_since_last_prediction
          * s.cfg.nfft ∧
    ((get_current_prediction classify s X).1.prediction ≠ s.prediction →
      (get_current_prediction classify s X).2.2
        = (get_current_prediction classify s X).1.intervals_since_current_prediction
            * s.cfg.nfft) := by
  unfold get_current_prediction
  by_cases h1 : readyAfter s = true
  · rw [if_pos h1]
    by_cases h2 : latestOf s.cfg (rawLabels classify s X) ≠ s.cfg.clean
    · rw [if_pos h2]
      by_cases h3 : confirmTail s.n_confirmations (rawLabels classify s X)
          (latestOf s.cfg (rawLabels classify s X)) = true
      · rw [if_pos h3]
        exact ⟨rfl, fun _ => rfl⟩
      · rw [if_neg h3]
        refine ⟨rfl, fun h => ?_⟩
        simp [finishStep] at h
    · rw [if_neg h2]
      refine ⟨rfl, fun h => ?_⟩
      simp [finishStep] at h
  · rw [if_neg h1]
    refine ⟨rfl, fun h => ?_⟩
    simp [finishStep] at h

/-- c6 witness: call 7 of the `cfgB` scenario changes the confirmed
class, and the duration indeed equals the candidate age times `nfft`. -/
theorem c6_witness :
    (get_current_prediction clB (sB 6) [7, 7]).1.prediction ≠ (sB 6).prediction ∧
    (get_current_prediction clB (sB 6) [7, 7]).2.2
      = (get_current_prediction clB (sB 6) [7, 7]).1.intervals_since_last_prediction
          * (sB 6).cfg.nfft ∧
    (get_current_prediction clB (sB 6) [7, 7]).2.2
      = (get_current_prediction clB (sB 6) [7, 7]).1.intervals_since_current_prediction
          * (sB 6).cfg.nfft :=
  ⟨by decide,
    (c6_duration_accounting clB (sB 6) [7, 7]).1,
    (c6_duration_accounting clB (sB 6) [7, 7]).2 (by decide)⟩

/-- c6 counterexample: at call 7 of the `cfgB` scenario the confirmed
class changes from 0 to the new value 1, yet the returned duration is
`4 > 2 = window_size`: the candidate was first seen at call 5, went
unconfirmed through a Clean call, and the candidate age counter kept
ticking. -/
theorem c6_counterexample :
    (sB 6).prediction = 0 ∧
    (get_current_prediction clB (sB 6) [7, 7]).1.prediction = 1 ∧
    (get_current_prediction clB (sB 6) [7, 7]).2.2 = 4 ∧
    (sB 6).cfg.nfft = 2 ∧
    ¬ (4 ≤ 2) := by
  refine ⟨by decide, by decide, by decide, by decide, by decide⟩

/-! ## Pre-readiness behaviour (claim c5) -/

/-- While fewer than `num_intervals = offset + 1` blocks have been fed
from a fresh engine, the readiness flag is still false, the write index
equals the number of calls so far, and the decision state is untouched. -/
theorem feed_preReady {α : Type} (cfg : RTConfig) (d : α)
    (classify : List α → List Nat) (Xs : List (List α))
    (h : Xs.length < cfg.offset + 1) :
    (feedAll classify (init α cfg d) Xs).ready = false ∧
    (feedAll classify (init α cfg d) Xs).buffer_index = Xs.length ∧
    (feedAll classify (init α cfg d) Xs).prediction = cfg.clean ∧
    (feedAll classify (init α cfg d) Xs).intervals_since_last_prediction = Xs.length ∧
    (feedAll classify (init α cfg d) Xs).num_intervals = cfg.offset + 1 ∧
    (feedAll classify (init α cfg d) Xs).cfg = cfg := by
  induction Xs using List.reverseRecOn with
  | nil => exact ⟨rfl, rfl, rfl, rfl, rfl, rfl⟩
  | append_singleton Ys X ih =>
    have hY : Ys.length < cfg.offset + 1 := by
      simp only [List.length_append, List.length_cons, List.length_nil] at h
      omega
    obtain ⟨hr, hb, hp, hl, hn, hc⟩ := ih hY
    have hra : readyAfter (feedAll classify (init α cfg d) Ys) = false := by
      unfold readyAfter
      rw [hr, hb, hn]
      simp only [Bool.false_or, decide_eq_false_iff_not]
      simp only [List.length_append, List.length_cons, List.length_nil] at h
      omega
    have hfeed : feedAll classify (init α cfg d) (Ys ++ [X])
        = (get_current_prediction classify (feedAll classify (init α cfg d) Ys) X).1 := by
      simp [feedAll]
    rw [hfeed, step_notReady classify _ X hra]
    refine ⟨rfl, ?_, hp, ?_, hn, hc⟩
    · show ((feedAll classify (init α cfg d) Ys).buffer_index + 1)
          % (feedAll classify (init α cfg d) Ys).num_intervals = (Ys ++ [X]).length
      rw [hb, hn]
      have hlt : Ys.length + 1 < cfg.offset + 1 := by simpa using h
      rw [Nat.mod_eq_of_lt hlt]
      simp
    · show (feedAll classify (init α cfg d) Ys).intervals_since_last_prediction + 1
          = (Ys ++ [X]).length
      rw [hl]
      simp

/-- The `k`-th return value of a run is the return value of one call on
the state reached by the first `k` blocks. -/
theorem outputsOf_getD {α : Type} (classify : List α → List Nat) :
    ∀ (Xs : List (List α)) (s : RealtimeModel α) (k : Nat), k < Xs.length →
      (outputsOf classify s Xs).getD k ("", 0)
        = (get_current_prediction classify (feedAll classify s (Xs.take k))
            (Xs.getD k [])).2 := by
  intro Xs
  induction Xs with
  | nil =>
    intro s k hk
    simp at hk
  | cons X rest ih =>
    intro s k hk
    cases k with
    | zero =>
      simp [outputsOf, feedAll]
    | succ k =>
      have hk' : k < rest.length := by simpa using hk
      simpa [outputsOf, feedAll] using
        ih (get_current_prediction classify s X).1 k hk'

/-- c5: from a fresh engine, for every configuration, classifier and
block contents, each of the first `num_intervals - 1` calls returns the
default Clean category (independently of the classifier, which is not
consulted), the engine is still not ready after `num_intervals - 1`
calls, and readiness — hence classification — begins exactly at the
`num_intervals`-th call. -/
theorem c5_readiness_gating {α : Type} (cfg : RTConfig) (d : α)
    (classify : List α → List Nat) (Xs : List (List α)) (k : Nat)
    (hk : k + 1 < cfg.offset + 1) (hkx : k < Xs.length) :
    (outputsOf classify (init α cfg d) Xs).getD k ("", 0)
      = (cfg.class_map cfg.clean, (k + 1) * cfg.nfft) ∧
    (feedAll classify (init α cfg d) (Xs.take cfg.offset)).ready = false ∧
    (cfg.offset + 1 ≤ Xs.length →
      (feedAll classify (init α cfg d) (Xs.take (cfg.offset + 1))).ready = true) := by
  refine ⟨?_, ?_, ?_⟩
  · rw [outputsOf_getD classify Xs _ k hkx]
    have hlen : (Xs.take k).length < cfg.offset + 1 := by
      rw [List.length_take]
      omega
    obtain ⟨hr, hb, hp, hl, hn, hc⟩ := feed_preReady cfg d classify (Xs.take k) hlen
    have htk : (Xs.take k).length = k := by
      rw [List.length_take]
      omega
    have hra : readyAfter (feedAll classify (init α cfg d) (Xs.take k)) = false := by
      unfold readyAfter
      rw [hr, hb, hn, htk]
      simp only [Bool.false_or, decide_eq_false_iff_not]
      omega
    rw [step_notReady classify _ _ hra]
    rw [hp, hl, hc, htk]
  · have hlen : (Xs.take cfg.offset).length < cfg.offset + 1 := by
      rw [List.length_take]
      omega
    exact (feed_preReady cfg d classify (Xs.take cfg.offset) hlen).1
  · intro hxs
    have hlen : (Xs.take cfg.offset).length < cfg.offset + 1 := by
      rw [List.length_take]
      omega
    obtain ⟨hr, hb, hp, hl, hn, hc⟩ := feed_preReady cfg d classify (Xs.take cfg.offset) hlen
    have htk : (Xs.take cfg.offset).length = cfg.offset := by
      rw [List.length_take]
      omega
    have hoff : cfg.offset < Xs.length := by omega
    have hy : Xs[cfg.offset]? = some Xs[cfg.offset] := List.getElem?_eq_getElem hoff
    have hsucc : Xs.take (cfg.offset + 1) = Xs.take cfg.offset ++ [Xs[cfg.offset]] := by
      rw [List.take_succ, hy]
      rfl
    rw [hsucc]
    have hfeed : feedAll classify (init α cfg d) (Xs.take cfg.offset ++ [Xs[cfg.offset]])
        = (get_current_prediction classify
            (feedAll classify (init α cfg d) (Xs.take cfg.offset)) Xs[cfg.offset]).1 := by
      unfold feedAll
      rw [List.foldl_append]
      rfl
    rw [hfeed, step_ready]
    unfold readyAfter
    rw [hr, hb, hn, htk]
    simp

/-- c5 witness: with `cfgC` (`offset = 2`, `num_intervals = 3`) and three
arbitrary one-sample blocks, the first call returns `("Clean", nfft)`,
the engine is not ready after two calls, and is ready after three. -/
theorem c5_witness :
    (outputsOf clA (init Nat cfgC 0) [[9], [8], [7]]).getD 0 ("", 0)
      = (cfgC.class_map cfgC.clean, (0 + 1) * cfgC.nfft) ∧
    (feedAll clA (init Nat cfgC 0) ([[9], [8], [7]].take cfgC.offset)).ready = false ∧
    (feedAll clA (init Nat cfgC 0) ([[9], [8], [7]].take (cfgC.offset + 1))).ready = true :=
  ⟨(c5_readiness_gating cfgC 0 clA [[9], [8], [7]] 0 (by decide) (by decide)).1,
    (c5_readiness_gating cfgC 0 clA [[9], [8], [7]] 0 (by decide) (by decide)).2.1,
    (c5_readiness_gating cfgC 0 clA [[9], [8], [7]] 0 (by decide) (by decide)).2.2 (by decide)⟩

/-! ## Circular buffer reconstruction (claim c3) -/

/-- State invariant tying a state to its configuration: consistent
derived sizes, allocated buffer length, and write index in range. -/
def Inv {α : Type} (cfg : RTConfig) (s : RealtimeModel α) : Prop :=
  s.cfg = cfg ∧
  s.num_intervals = cfg.offset + 1 ∧
  s.buffer.length = cfg.nfft * (cfg.offset + 1) ∧
  s.buffer_index < cfg.offset + 1

theorem Inv_init {α : Type} (cfg : RTConfig) (d : α) : Inv cfg (init α cfg d) :=
  ⟨rfl, rfl, by simp [init], by simp [init]⟩

theorem writeBuffer_length {α : Type} (cfg : RTConfig) (s : RealtimeModel α) (X : List α)
    (hc : s.cfg = cfg) (hb : s.buffer.length = cfg.nfft * (cfg.offset + 1))
    (hi : s.buffer_index < cfg.offset + 1) (hX : X.length = cfg.nfft) :
    (writeBuffer s X).length = cfg.nfft * (cfg.offset + 1) := by
  unfold writeBuffer
  rw [hc, List.length_append, List.length_append, List.length_take, List.length_drop,
    hb, hX, Nat.succ_mul, Nat.mul_comm cfg.nfft (cfg.offset + 1)]
  have h1 : s.buffer_index * cfg.nfft + cfg.nfft ≤ (cfg.offset + 1) * cfg.nfft := by
    have h2 : (s.buffer_index + 1) * cfg.nfft ≤ (cfg.offset + 1) * cfg.nfft :=
      Nat.mul_le_mul_right _ (Nat.succ_le_of_lt hi)
    rw [Nat.succ_mul] at h2
    exact h2
  omega

theorem Inv_step {α : Type} (cfg : RTConfig) (classify : List α → List Nat)
    (s : RealtimeModel α) (X : List α) (hInv : Inv cfg s) (hX : X.length = cfg.nfft) :
    Inv cfg (get_current_prediction classify s X).1 := by
  obtain ⟨hc, hn, hb, hi⟩ := hInv
  refine ⟨by rw [step_cfg]; exact hc, by rw [step_num_intervals]; exact hn, ?_, ?_⟩
  · rw [step_buffer]
    exact writeBuffer_length cfg s X hc hb hi hX
  · rw [step_buffer_index, hn]
    exact Nat.mod_lt _ (by omega)

theorem Inv_feedAll {α : Type} (cfg : RTConfig) (classify : List α → List Nat)
    (Xs : List (List α)) :
    ∀ s : RealtimeModel α, Inv cfg s → (∀ B ∈ Xs, B.length = cfg.nfft) →
      Inv cfg (feedAll classify s Xs) := by
  induction Xs with
  | nil => intro s h _; exact h
  | cons X rest ih =>
    intro s h hXs
    exact ih (get_current_prediction classify s X).1
      (Inv_step cfg classify s X h (hXs X (by simp)))
      (fun B hB => hXs B (by simp [hB]))

theorem logicalContent_length {α : Type} (s : RealtimeModel α) :
    (logicalContent s).length = s.buffer.length := by
  unfold logicalContent
  rw [List.length_append, List.length_drop, List.length_take]
  omega

theorem logicalContent_init {α : Type} (cfg : RTConfig) (d : α) :
    logicalContent (init α cfg d) = List.replicate (cfg.nfft * (cfg.offset + 1)) d := by
  simp [logicalContent, init]

theorem take_one_of_getElem? {β : Type} (l : List β) (a : β) (h : l[0]? = some a) :
    l.take 1 = [a] := by
  cases l with
  | nil => simp at h
  | cons x xs =>
    simp only [List.getElem?_cons_zero, Option.some.injEq] at h
    rw [h]
    rfl

/-- The key list identity of one buffer write: rotating the buffer from
the slot after the one just written equals shedding the oldest block of
the previous rotation and appending the new block. -/
theorem rotate_write {α : Type} (buf X : List α) (f n bi : Nat)
    (hbuf : buf.length = f * n) (hbi : bi < n) (hX : X.length = f) :
    (buf.take (bi * f) ++ X ++ buf.drop ((bi + 1) * f)).drop (((bi + 1) % n) * f)
      ++ (buf.take (bi * f) ++ X ++ buf.drop ((bi + 1) * f)).take (((bi + 1) % n) * f)
      = (buf.drop (bi * f) ++ buf.take (bi * f)).drop f ++ X := by
  have hbuf' : buf.length = n * f := by rw [hbuf, Nat.mul_comm]
  have hle : bi * f + f ≤ n * f := by
    have h1 : (bi + 1) * f ≤ n * f := Nat.mul_le_mul_right _ (Nat.succ_le_of_lt hbi)
    rw [Nat.succ_mul] at h1
    exact h1
  have hT : (buf.take (bi * f)).length = bi * f := by
    rw [List.length_take, hbuf']
    omega
  rcases Nat.lt_or_ge (bi + 1) n with hlt | hge
  · rw [Nat.mod_eq_of_lt hlt, Nat.succ_mul]
    have hTX : (buf.take (bi * f) ++ X).length = bi * f + f := by
      rw [List.length_append, hT, hX]
    rw [List.drop_left' hTX, List.take_left' hTX]
    rw [List.drop_append_eq_append_drop, List.drop_drop]
    have hz : f - (buf.drop (bi * f)).length = 0 := by
      rw [List.length_drop, hbuf']
      omega
    rw [hz, List.drop_zero, List.append_assoc]
  · have hbi1 : bi + 1 = n := by omega
    have hD : buf.drop (n * f) = [] := List.drop_eq_nil_of_le (by rw [hbuf'])
    rw [hbi1, Nat.mod_self, Nat.zero_mul, List.drop_zero, List.take_zero, List.append_nil]
    rw [hD, List.append_nil]
    rw [List.drop_append_eq_append_drop, List.drop_drop]
    have ha : bi * f + f = n * f := by
      rw [← hbi1, Nat.succ_mul]
    rw [ha, hD]
    have hz : f - (buf.drop (bi * f)).length = 0 := by
      rw [List.length_drop, hbuf']
      omega
    rw [hz, List.drop_zero, List.nil_append]

/-- One call shifts the chronological buffer content by one block:
the buffer rotation after the call equals the previous rotation without
its oldest block, followed by the newly written block. -/
theorem logicalContent_step {α : Type} (cfg : RTConfig) (classify : List α → List Nat)
    (s : RealtimeModel α) (X : List α) (hInv : Inv cfg s) (hX : X.length = cfg.nfft) :
    logicalContent (get_current_prediction classify s X).1
      = (logicalContent s).drop cfg.nfft ++ X := by
  obtain ⟨hc, hn, hb, hi⟩ := hInv
  unfold logicalContent
  rw [step_buffer, step_buffer_index, step_cfg, hc, hn]
  unfold writeBuffer
  rw [hc]
  exact rotate_write s.buffer X cfg.nfft (cfg.offset + 1) s.buffer_index hb hi hX

/-- Over a whole run, the chronological buffer content is the suffix of
initial fill plus all fed samples that fits the buffer. -/
theorem logicalContent_feedAll {α : Type} (cfg : RTConfig) (classify : List α → List Nat)
    (Xs : List (List α)) :
    ∀ s : RealtimeModel α, Inv cfg s → (∀ B ∈ Xs, B.length = cfg.nfft) →
      logicalContent (feedAll classify s Xs)
        = (logicalContent s ++ Xs.flatten).drop (Xs.length * cfg.nfft) := by
  induction Xs with
  | nil =>
    intro s _ _
    simp [feedAll]
  | cons X rest ih =>
    intro s hInv hXs
    have hX : X.length = cfg.nfft := hXs X (by simp)
    have hrest : ∀ B ∈ rest, B.length = cfg.nfft := fun B hB => hXs B (by simp [hB])
    have hstep : feedAll classify s (X :: rest)
        = feedAll classify (get_current_prediction classify s X).1 rest := rfl
    rw [hstep, ih _ (Inv_step cfg classify s X hInv hX) hrest,
      logicalContent_step cfg classify s X hInv hX, List.flatten_cons]
    have hL : cfg.nfft ≤ (logicalContent s).length := by
      rw [logicalContent_length, hInv.2.2.1]
      calc cfg.nfft = cfg.nfft * 1 := (Nat.mul_one _).symm
        _ ≤ cfg.nfft * (cfg.offset + 1) := Nat.mul_le_mul_left _ (by omega)
    have h1 : (logicalContent s ++ (X ++ rest.flatten)).drop cfg.nfft
        = (logicalContent s).drop cfg.nfft ++ (X ++ rest.flatten) := by
      rw [List.drop_append_eq_append_drop]
      have hz : cfg.nfft - (logicalContent s).length = 0 := by omega
      rw [hz, List.drop_zero]
    rw [List.length_cons, Nat.succ_mul, Nat.add_comm (rest.length * cfg.nfft) cfg.nfft,
      ← List.drop_drop, h1, List.append_assoc]

/-- The sample sequence handed to the feature pipeline is the post-call
buffer rotation followed by a duplicate of its first (oldest) sample:
the extra element comes from the `1 +` in `self.buffer[:1+((end+shift)%L)]`
at line 81 of the source. -/
theorem handedWindow_split {α : Type} (cfg : RTConfig) (classify : List α → List Nat)
    (s : RealtimeModel α) (X : List α)
    (hInv : Inv cfg s) (hX : X.length = cfg.nfft) (hf : 0 < cfg.nfft) :
    handedWindow s X
      = logicalContent (get_current_prediction classify s X).1
        ++ (logicalContent (get_current_prediction classify s X).1).take 1 := by
  obtain ⟨hc, hn, hb, hi⟩ := hInv
  unfold handedWindow logicalContent bufLen
  rw [step_buffer, step_buffer_index, step_cfg, hc, hn]
  have hmod : ((s.buffer_index + 1) * cfg.nfft) % (cfg.nfft * (cfg.offset + 1))
      = ((s.buffer_index + 1) % (cfg.offset + 1)) * cfg.nfft := by
    rw [Nat.mul_comm cfg.nfft (cfg.offset + 1)]
    exact Nat.mul_mod_mul_right cfg.nfft (s.buffer_index + 1) (cfg.offset + 1)
  rw [hmod]
  have hW : (writeBuffer s X).length = cfg.nfft * (cfg.offset + 1) :=
    writeBuffer_length cfg s X hc hb hi hX
  have hr : (s.buffer_index + 1) % (cfg.offset + 1) < cfg.offset + 1 :=
    Nat.mod_lt _ (by omega)
  have he : ((s.buffer_index + 1) % (cfg.offset + 1)) * cfg.nfft
      < (writeBuffer s X).length := by
    rw [hW, Nat.mul_comm cfg.nfft (cfg.offset + 1)]
    have h1 : ((s.buffer_index + 1) % (cfg.offset + 1)) * cfg.nfft + cfg.nfft
        ≤ (cfg.offset + 1) * cfg.nfft := by
      have h2 := Nat.mul_le_mul_right (k := cfg.nfft) (Nat.succ_le_of_lt hr)
      rw [Nat.succ_mul] at h2
      exact h2
    omega
  obtain ⟨a, hget⟩ : ∃ a,
      (writeBuffer s X)[((s.buffer_index + 1) % (cfg.offset + 1)) * cfg.nfft]? = some a :=
    ⟨_, List.getElem?_eq_getElem he⟩
  have h0 : ((writeBuffer s X).drop
      (((s.buffer_index + 1) % (cfg.offset + 1)) * cfg.nfft))[0]? = some a := by
    rw [List.getElem?_drop, Nat.add_zero]
    exact hget
  have h2 : (writeBuffer s X).take
        (1 + ((s.buffer_index + 1) % (cfg.offset + 1)) * cfg.nfft)
      = (writeBuffer s X).take (((s.buffer_index + 1) % (cfg.offset + 1)) * cfg.nfft)
        ++ [a] := by
    rw [Nat.add_comm 1 (((s.buffer_index + 1) % (cfg.offset + 1)) * cfg.nfft),
      List.take_succ, hget]
    rfl
  have hlen1 : 1 ≤ ((writeBuffer s X).drop
      (((s.buffer_index + 1) % (cfg.offset + 1)) * cfg.nfft)).length := by
    rw [List.length_drop]
    omega
  have h3 : ((writeBuffer s X).drop (((s.buffer_index + 1) % (cfg.offset + 1)) * cfg.nfft)
        ++ (writeBuffer s X).take
          (((s.buffer_index + 1) % (cfg.offset + 1)) * cfg.nfft)).take 1 = [a] := by
    rw [List.take_append_eq_append_take]
    have hz : 1 - ((writeBuffer s X).drop
        (((s.buffer_index + 1) % (cfg.offset + 1)) * cfg.nfft)).length = 0 := by
      omega
    rw [hz, List.take_zero, List.append_nil]
    exact take_one_of_getElem? _ _ h0
  rw [h2, h3]
  exact (List.append_assoc _ _ _).symm

/-- c3 (amended): on every ready call the sample sequence handed to the
windowing/feature function consists of the most recent `num_intervals`
blocks in chronological order FOLLOWED BY one extra duplicated sample,
the oldest sample of the window (so `window_size * num_intervals + 1`
samples, not `window_size * num_intervals` as claimed: the slice
`buffer[:1+e]` at line 81 duplicates the element at the wrap position). -/
theorem c3_window_reconstruction {α : Type} (cfg : RTConfig) (d : α)
    (classify : List α → List Nat) (Ys : List (List α)) (X : List α)
    (hf : 0 < cfg.nfft) (hYs : ∀ B ∈ Ys, B.length = cfg.nfft)
    (hX : X.length = cfg.nfft) (hn : cfg.offset + 1 ≤ Ys.length + 1) :
    handedWindow (feedAll classify (init α cfg d) Ys) X
      = ((Ys ++ [X]).flatten).drop ((Ys.length + 1 - (cfg.offset + 1)) * cfg.nfft)
        ++ (((Ys ++ [X]).flatten).drop
            ((Ys.length + 1 - (cfg.offset + 1)) * cfg.nfft)).take 1 := by
  have hInv : Inv cfg (feedAll classify (init α cfg d) Ys) :=
    Inv_feedAll cfg classify Ys (init α cfg d) (Inv_init cfg d) hYs
  have hsplit := handedWindow_split cfg classify
    (feedAll classify (init α cfg d) Ys) X hInv hX hf
  have hpost : (get_current_prediction classify (feedAll classify (init α cfg d) Ys) X).1
      = feedAll classify (init α cfg d) (Ys ++ [X]) := by
    unfold feedAll
    rw [List.foldl_append]
    rfl
  have hall : ∀ B ∈ Ys ++ [X], B.length = cfg.nfft := by
    intro B hB
    rcases List.mem_append.mp hB with h | h
    · exact hYs B h
    · simp only [List.mem_singleton] at h
      rw [h]
      exact hX
  have hlog := logicalContent_feedAll cfg classify (Ys ++ [X]) (init α cfg d)
    (Inv_init cfg d) hall
  rw [logicalContent_init] at hlog
  have hm : (Ys ++ [X]).length = Ys.length + 1 := by simp
  rw [hm] at hlog
  have hdrop : (List.replicate (cfg.nfft * (cfg.offset + 1)) d
        ++ (Ys ++ [X]).flatten).drop ((Ys.length + 1) * cfg.nfft)
      = ((Ys ++ [X]).flatten).drop ((Ys.length + 1 - (cfg.offset + 1)) * cfg.nfft) := by
    rw [List.drop_append_eq_append_drop]
    have h1 : (List.replicate (cfg.nfft * (cfg.offset + 1)) d).drop
        ((Ys.length + 1) * cfg.nfft) = [] := by
      apply List.drop_eq_nil_of_le
      rw [List.length_replicate]
      calc cfg.nfft * (cfg.offset + 1) = (cfg.offset + 1) * cfg.nfft := Nat.mul_comm _ _
        _ ≤ (Ys.length + 1) * cfg.nfft := Nat.mul_le_mul_right _ hn
    rw [h1, List.nil_append, List.length_replicate]
    congr 1
    rw [Nat.mul_comm cfg.nfft (cfg.offset + 1), ← Nat.sub_mul]
  rw [hsplit, hpost, hlog, hdrop]

/-- c3 witness: with `cfgC` (one-sample blocks, `num_intervals = 3`),
after blocks `[1], [2], [3]` the call with block `[4]` hands the window
`[2, 3, 4]` (the last three blocks) plus the duplicated oldest sample. -/
theorem c3_witness :
    0 < cfgC.nfft ∧
    handedWindow (feedAll clA (init Nat cfgC 0) [[1], [2], [3]]) [4]
      = [2, 3, 4] ++ [2] :=
  ⟨by decide, by
    have h := c3_window_reconstruction cfgC 0 clA [[1], [2], [3]] [4]
      (by decide) (by decide) (by decide) (by decide)
    simpa using h⟩

/-- c3 counterexample: with `cfgA` (`num_intervals = 2`, one-sample
blocks) and blocks `[1]` then `[2]`, the most recent two blocks in
chronological order are the samples `[1, 2]`, but the sequence handed to
the feature pipeline is `[1, 2, 1]` — one sample more than the claimed
`window_size * num_intervals`. -/
theorem c3_counterexample :
    handedWindow (feedAll clA (init Nat cfgA 0) [[1]]) [2] = [1, 2, 1] ∧
    handedWindow (feedAll clA (init Nat cfgA 0) [[1]]) [2] ≠ [1, 2] := by
  refine ⟨by decide, by decide⟩

/-- c9 (amended): the predictions buffer is allocated with `nfft` entries
per shift (line 40), so the raw label sequence stored there and consulted
by the decision update has length `nfft` — not `offset` — whenever the
classifier output fits the allocated column, and the sequence the
decision update reads is exactly the classifier output of this call. -/
theorem c9_label_sequence_length {α : Type} (cfg : RTConfig) (d : α)
    (classify : List α → List Nat) (s : RealtimeModel α) (X : List α)
    (hlen : ∀ w, (classify w).length = cfg.nfft)
    (hpred : s.predictions.length = cfg.nfft) :
    (init α cfg d).predictions.length = cfg.nfft ∧
    (get_current_prediction classify s X).1.predictions.length = cfg.nfft ∧
    (readyAfter s = true →
      (get_current_prediction classify s X).1.predictions = rawLabels classify s X) := by
  refine ⟨by simp [init], ?_, ?_⟩
  · unfold get_current_prediction
    by_cases h1 : readyAfter s = true
    · rw [if_pos h1]
      split_ifs <;> exact hlen _
    · rw [if_neg h1]
      exact hpred
  · intro h1
    unfold get_current_prediction
    rw [if_pos h1]
    split_ifs <;> rfl

/-- c9 witness: at the first ready call of the `cfgB` scenario the stored
label column has the allocated length `nfft` and equals the classifier
output for the handed window. -/
theorem c9_witness :
    (init Nat cfgB 0).predictions.length = cfgB.nfft ∧
    (get_current_prediction clB (sB 4) [5, 5]).1.predictions.length = cfgB.nfft ∧
    (get_current_prediction clB (sB 4) [5, 5]).1.predictions
      = rawLabels clB (sB 4) [5, 5] := by
  have hlen : ∀ w, (clB w).length = cfgB.nfft := by
    intro w
    unfold clB
    split_ifs <;> rfl
  have h := c9_label_sequence_length cfgB 0 clB (sB 4) [5, 5] hlen (by decide)
  exact ⟨h.1, h.2.1, h.2.2 (by decide)⟩

/-- c9 counterexample: in the `cfgB` configuration (`nfft = 2`,
`offset = 4`) the classifier output consumed at the first ready call —
the only shape the assignment into the `(nfft, n_shifts)` array accepts —
has length 2, which is not `offset = 4`. -/
theorem c9_counterexample :
    readyAfter (sB 4) = true ∧
    (rawLabels clB (sB 4) [5, 5]).length = cfgB.nfft ∧
    cfgB.offset = 4 ∧
    (rawLabels clB (sB 4) [5, 5]).length ≠ cfgB.offset := by
  refine ⟨by decide, by decide, rfl, by decide⟩

/-! ## Batch mask characterization (claim c7) -/

theorem getD_eq_getElem_of_lt (y : List Nat) (k : Nat) (h : k < y.length) :
    y.getD k 0 = y[k] := by
  rw [List.getD_eq_getElem?_getD, List.getElem?_eq_getElem h]
  rfl

theorem getD_zipWith_and (a b : List Bool) (t : Nat) :
    (List.zipWith (fun x y => x && y) a b).getD t false
      = (a.getD t false && b.getD t false) := by
  rw [List.getD_eq_getElem?_getD, List.getD_eq_getElem?_getD, List.getD_eq_getElem?_getD,
    List.getElem?_zipWith]
  cases ha : a[t]? <;> cases hb : b[t]? <;> simp

theorem getD_dropLast (a : List Bool) (t : Nat) :
    a.dropLast.getD t false = if t < a.length - 1 then a.getD t false else false := by
  rw [List.getD_eq_getElem?_getD, List.getElem?_dropLast]
  split_ifs with h
  · rw [List.getD_eq_getElem?_getD]
  · rfl

theorem getD_repeatedMask (y : List Nat) (j t : Nat) :
    (repeatedMask y j).getD t false
      = (decide (t + j < y.length) && (y.getD (t + j) 0 == y.getD t 0)) := by
  unfold repeatedMask
  rw [List.getD_eq_getElem?_getD, List.getElem?_zipWith, List.getElem?_drop]
  rcases Nat.lt_or_ge (t + j) y.length with h | h
  · have ht : t < y.length - j := by omega
    rw [List.getElem?_take_of_lt ht,
      List.getElem?_eq_getElem (show j + t < y.length by omega),
      List.getElem?_eq_getElem (show t < y.length by omega)]
    rw [getD_eq_getElem_of_lt y (t + j) h, getD_eq_getElem_of_lt y t (by omega)]
    have hco : y[j + t] = y[t + j] := by
      congr 1
      omega
    rw [hco]
    simp [h]
  · rw [List.getElem?_eq_none (by omega)]
    simp
    omega

theorem keyIter_length (clean : Nat) (y : List Nat) (j : Nat) :
    (keyIter clean y j).length = y.length - j := by
  induction j with
  | zero => simp [keyIter]
  | succ j ih =>
    simp only [keyIter, List.length_zipWith, List.length_dropLast, ih, repeatedMask,
      List.length_drop, List.length_take]
    omega

/-- What position `t` of the iterated mask of line 124-130 records:
position in range, every label up to distance `j` equal to the label at
`t`, and that label non clean. -/
theorem keyIter_getD (clean : Nat) (y : List Nat) (j : Nat) :
    ∀ t, ((keyIter clean y j).getD t false = true ↔
      (t + j < y.length ∧ y.getD t 0 ≠ clean ∧
        ∀ i, i ≤ j → y.getD (t + i) 0 = y.getD t 0)) := by
  induction j with
  | zero =>
    intro t
    simp only [keyIter]
    rw [List.getD_eq_getElem?_getD, List.getElem?_map]
    rcases Nat.lt_or_ge t y.length with ht | ht
    · rw [List.getElem?_eq_getElem ht, getD_eq_getElem_of_lt y t ht]
      constructor
      · intro h
        have h2 : y[t] ≠ clean := by simpa using h
        refine ⟨by omega, h2, ?_⟩
        intro i hi
        have hi0 : i = 0 := by omega
        rw [hi0, Nat.add_zero]
        exact getD_eq_getElem_of_lt y t ht
      · rintro ⟨_, h2, _⟩
        simpa using h2
    · rw [List.getElem?_eq_none (by omega)]
      constructor
      · intro h
        exact absurd h (by simp)
      · rintro ⟨h1, _, _⟩
        omega
  | succ j ih =>
    intro t
    simp only [keyIter]
    rw [getD_zipWith_and, getD_dropLast, getD_repeatedMask, keyIter_length]
    constructor
    · intro h
      simp only [Bool.and_eq_true, decide_eq_true_eq, beq_iff_eq] at h
      obtain ⟨hif, hbound, heq⟩ := h
      have hlt : t < y.length - j - 1 := by
        by_contra hc
        rw [if_neg (by omega)] at hif
        exact absurd hif (by simp)
      rw [if_pos hlt] at hif
      obtain ⟨hb, hnc, hall⟩ := (ih t).mp hif
      refine ⟨by omega, hnc, ?_⟩
      intro i hi
      rcases Nat.lt_or_ge i (j + 1) with hij | hij
      · exact hall i (by omega)
      · have hieq : i = j + 1 := by omega
        rw [hieq]
        exact heq
    · rintro ⟨hb, hnc, hall⟩
      have hlt : t < y.length - j - 1 := by omega
      rw [if_pos hlt]
      simp only [Bool.and_eq_true, decide_eq_true_eq, beq_iff_eq]
      exact ⟨(ih t).mpr ⟨by omega, hnc, fun i hi => hall i (by omega)⟩,
        by omega, hall (j + 1) (by omega)⟩

/-- c7: a position of the label sequence is marked confirmed-nonclean by
the batch run detector if and only if a run of at least
`n_confirmations = max 1 (offset - 2)` consecutive equal labels starts
there and that label is non-Clean; and when no position is marked the
recording takes the clean path of line 164-165 and its result is Clean
with no start and no end offsets. -/
theorem c7_confirmed_mask (cfg : RTConfig) (y : List Nat) (t : Nat) :
    ((keyMask cfg y).getD t false = true ↔
      (t + max 1 (cfg.offset - 2) ≤ y.length ∧
        y.getD t 0 ≠ cfg.clean ∧
        ∀ i, i < max 1 (cfg.offset - 2) → y.getD (t + i) 0 = y.getD t 0)) ∧
    ((keyMask cfg y).any (fun b => b) = false →
      classificateOne cfg y = some { Class := cfg.clean, Start := none, Stop := none }) := by
  have hpos : 1 ≤ max 1 (cfg.offset - 2) := le_max_left _ _
  constructor
  · unfold keyMask
    refine (keyIter_getD cfg.clean y (max 1 (cfg.offset - 2) - 1) t).trans ?_
    constructor
    · rintro ⟨h1, h2, h3⟩
      exact ⟨by omega, h2, fun i hi => h3 i (by omega)⟩
    · rintro ⟨h1, h2, h3⟩
      exact ⟨by omega, h2, fun i hi => h3 i (by omega)⟩
  · intro h
    unfold classificateOne
    rw [if_neg (by simp [h])]

/-- c7 witness: for the scenario-C label sequence, position 2 (head of
the `Narrowband Start` run) is marked and satisfies the run predicate;
and an all-clean recording yields the Clean result dict. -/
theorem c7_witness :
    (keyMask defaultConfig [0, 0, 1, 1, 2, 2, 0]).getD 2 false = true ∧
    (2 + max 1 (defaultConfig.offset - 2) ≤ ([0, 0, 1, 1, 2, 2, 0] : List Nat).length ∧
      ([0, 0, 1, 1, 2, 2, 0] : List Nat).getD 2 0 ≠ defaultConfig.clean ∧
      ∀ i, i < max 1 (defaultConfig.offset - 2) →
        ([0, 0, 1, 1, 2, 2, 0] : List Nat).getD (2 + i) 0
          = ([0, 0, 1, 1, 2, 2, 0] : List Nat).getD 2 0) ∧
    classificateOne defaultConfig [0, 0]
      = some { Class := defaultConfig.clean, Start := none, Stop := none } :=
  ⟨by decide,
    (c7_confirmed_mask defaultConfig [0, 0, 1, 1, 2, 2, 0] 2).1.mp (by decide),
    (c7_confirmed_mask defaultConfig [0, 0] 0).2 (by decide)⟩

/-- c1: the batch run detector cannot return the claimed result on any
recording with confirmed non-Clean positions, even one passing the
validity check of line 144.  For `y = [2, 2, 4, 4]` under the default
maps, the validity check passes (both labels map to the coarse category
"Clean" and there are exactly two distinct confirmed labels), yet
line 136 has rebound the result list `prediction` to a numpy scalar, so
the item assignment `prediction[i] = {...}` at line 162 raises
`TypeError` (modelled as `none`) instead of returning a result — and the
value it tried to store as `Class` was the fine start label, not its
coarse category. -/
theorem c1_batch_crash :
    validityOk defaultConfig [2, 2, 4, 4] = true ∧
    start_label defaultConfig [2, 2, 4, 4] = 2 ∧
    end_label defaultConfig [2, 2, 4, 4] = 4 ∧
    runHeadPos 2 [2, 2, 4, 4] 1 = 0 ∧
    runHeadPos 4 [2, 2, 4, 4] 1 = 2 ∧
    classificateOne defaultConfig [2, 2, 4, 4] = none ∧
    classificate_recordings defaultConfig (fun y => y) [[2, 2, 4, 4]] = none := by
  refine ⟨by decide, by decide, by decide, by decide, by decide, by decide, by decide⟩

/-- c8: on recordings whose confirmed non-Clean labels are ambiguous the
claim expects a graceful Clean result, but the code raises instead.  For
`y = [0, 0, 1, 1, 3, 3, 2, 2]` there are three distinct confirmed
non-Clean labels, the validity check of line 144 fails, and the call
dies with `TypeError` at line 162 (the result list was rebound at
line 136, then to the string `"Clean"` at line 145), modelled as `none`:
it neither returns Clean nor any result. -/
theorem c8_ambiguous_crash :
    (npUnique (selectMask [0, 0, 1, 1, 3, 3, 2, 2]
        (keyMask defaultConfig [0, 0, 1, 1, 3, 3, 2, 2]))).1 = [1, 2, 3] ∧
    validityOk defaultConfig [0, 0, 1, 1, 3, 3, 2, 2] = false ∧
    classificateOne defaultConfig [0, 0, 1, 1, 3, 3, 2, 2] = none ∧
    classificate_recordings defaultConfig (fun y => y) [[0, 0, 1, 1, 3, 3, 2, 2]] = none := by
  refine ⟨by decide, by decide, by decide, by decide⟩

end OFDM
